import Mathlib

/-!
Verification of the PDF delivery-manifest ingestion pipeline.

This file shallowly embeds the two relevant source files of the repository,
`database-service.js` (the Manifest Store: `storeManifest`, `storeDelivery`,
`getManifestById`, `getManifestByRef`, `searchDeliveries`, `createBatchJob`,
`updateBatchJob`, `linkBatchManifest`, `getStatistics`) and `server.js`
(the batch processor `processBatchInBackground` and the manifest-lookup
dispatch of `GET /manifests/:manifestId`).

Modelling conventions:
* JavaScript values appearing in extracted data are modelled by `JsVal`
  (undefined / null / string / number); numbers are rationals, with the
  distinguished `JsNum.nan` for NaN.
* `parseFloat`, `parseInt` and the `Number(...)` coercion are modelled for
  decimal literals (the only shapes reachable from the extractor's string
  fields); hexadecimal/exponent literals and `Infinity` are out of scope.
* The PostgreSQL database is a pure state (`DbState`); one transaction is a
  pending buffer (`TxClient`) that is merged on COMMIT and dropped on
  ROLLBACK.  Insert failures are injected through an explicit fault index.
* `JSON.stringify` of a raw payload is modelled as the payload value itself.
-/

/-- A JavaScript number: a rational, or NaN. -/
inductive JsNum where
  | num (q : ℚ)
  | nan
deriving DecidableEq, Repr

/-- A JavaScript value as it occurs in the extracted JSON fields. -/
inductive JsVal where
  | undef
  | nullv
  | str (s : String)
  | num (q : ℚ)
deriving DecidableEq, Repr

/-- JavaScript truthiness of a `JsVal` (NaN inputs do not occur in JSON). -/
def jsTruthy : JsVal → Bool
  | .undef => false
  | .nullv => false
  | .str s => s ≠ ""
  | .num q => q ≠ 0

/-- The JavaScript `x || d` idiom used throughout `database-service.js`. -/
def jsOr (x d : JsVal) : JsVal := if jsTruthy x then x else d

/-- Digits of a decimal string folded into a natural number. -/
def digitsToNat (cs : List Char) : Nat :=
  cs.foldl (fun a c => a * 10 + (c.toNat - 48)) 0

/-- Truncation toward zero, as JavaScript `parseInt` applied to a number. -/
def jsTrunc (q : ℚ) : ℚ := if q < 0 then -(Int.floor (-q) : ℚ) else (Int.floor q : ℚ)

/-- JavaScript `parseFloat` on a string: leading whitespace, an optional
sign, then the longest prefix `digits[.digits]`; NaN when that prefix holds
no digit.  Exponents are not modelled. -/
def parseFloatStr (s : String) : JsNum :=
  let cs := s.data.dropWhile (fun c => c = ' ' ∨ c = '\t' ∨ c = '\n' ∨ c = '\r')
  let signAndRest : Bool × List Char :=
    match cs with
    | '-' :: rest => (true, rest)
    | '+' :: rest => (false, rest)
    | _ => (false, cs)
  let neg := signAndRest.1
  let cs1 := signAndRest.2
  let intPart := cs1.takeWhile Char.isDigit
  let afterInt := cs1.dropWhile Char.isDigit
  let fracPart : List Char :=
    match afterInt with
    | '.' :: r => r.takeWhile Char.isDigit
    | _ => []
  if intPart.isEmpty ∧ fracPart.isEmpty then .nan
  else
    let v : ℚ := (digitsToNat intPart : ℚ) + (digitsToNat fracPart : ℚ) / ((10 : ℚ) ^ fracPart.length)
    .num (if neg then -v else v)

/-- JavaScript `parseInt` (radix 10) on a string: leading whitespace, an
optional sign, then the longest digit prefix; NaN when there is none. -/
def parseIntStr (s : String) : JsNum :=
  let cs := s.data.dropWhile (fun c => c = ' ' ∨ c = '\t' ∨ c = '\n' ∨ c = '\r')
  let signAndRest : Bool × List Char :=
    match cs with
    | '-' :: rest => (true, rest)
    | '+' :: rest => (false, rest)
    | _ => (false, cs)
  let neg := signAndRest.1
  let intPart := signAndRest.2.takeWhile Char.isDigit
  if intPart.isEmpty then .nan
  else
    let v : ℚ := (digitsToNat intPart : ℚ)
    .num (if neg then -v else v)

/-- `parseFloat` applied to a `JsVal` (a finite number round-trips through
its decimal representation). -/
def jsParseFloat : JsVal → JsNum
  | .str s => parseFloatStr s
  | .num q => .num q
  | .undef => .nan
  | .nullv => .nan

/-- `parseInt` applied to a `JsVal`: a number is truncated toward zero by
way of its decimal representation. -/
def jsParseInt : JsVal → JsNum
  | .str s => parseIntStr s
  | .num q => .num (jsTrunc q)
  | .undef => .nan
  | .nullv => .nan

/-- The JavaScript `Number(...)` coercion used by the `Date` constructor on
the pieces of a split date string: `undefined` is NaN, an all-whitespace
string is 0, a full (signed) decimal literal is its value, anything else is
NaN. -/
def jsToNumber : Option String → JsNum
  | none => .nan
  | some s =>
    let cs := s.data.filter (fun c => ¬(c = ' ' ∨ c = '\t' ∨ c = '\n' ∨ c = '\r'))
    if cs.isEmpty then .num 0
    else
      let signAndRest : Bool × List Char :=
        match cs with
        | '-' :: rest => (true, rest)
        | '+' :: rest => (false, rest)
        | _ => (false, cs)
      let neg := signAndRest.1
      let cs1 := signAndRest.2
      let intPart := cs1.takeWhile Char.isDigit
      let afterInt := cs1.dropWhile Char.isDigit
      let fracPart : List Char :=
        match afterInt with
        | '.' :: r =>
          if r.all Char.isDigit then r else []
        | _ => []
      let consumedAll : Bool :=
        match afterInt with
        | [] => true
        | '.' :: r => r.all Char.isDigit
        | _ => false
      if intPart.isEmpty ∧ fracPart.isEmpty then .nan
      else if ¬consumedAll then .nan
      else
        let v : ℚ := (digitsToNat intPart : ℚ) + (digitsToNat fracPart : ℚ) / ((10 : ℚ) ^ fracPart.length)
        .num (if neg then -v else v)

/-- A JavaScript `Date` as produced by `new Date(year, monthIndex, day)`:
either a valid date (arguments kept un-normalised; calendar roll-over is
irrelevant to the claims) or the `Invalid Date` value produced when any
argument coerces to NaN. -/
inductive JsDate where
  | valid (year monthIndex day : ℚ)
  | invalid
deriving DecidableEq, Repr

/-- `new Date(year, month - 1, day)` over already-coerced numbers. -/
def mkJsDate (year month day : JsNum) : JsDate :=
  match year, month, day with
  | .num y, .num m, .num d => .valid y (m - 1) d
  | _, _, _ => .invalid

/-- The planned-delivery-date parsing of `storeManifest`
(`database-service.js` lines 60-68): when the field is truthy, split on
`/` (JavaScript `String.prototype.split` with a one-character separator,
modelled by `splitOnChar`), coerce the pieces and build a `Date`.  Note that neither
`String.split` nor the `Date` constructor throws in JavaScript, so the
source's `catch` branch (which would leave the date `null` and log a
warning) is unreachable; an unparsable string yields `Invalid Date`. -/
def splitOnChar (sep : Char) : List Char → List (List Char)
  | [] => [[]]
  | c :: rest =>
    if c = sep then [] :: splitOnChar sep rest
    else
      match splitOnChar sep rest with
      | [] => [[c]]
      | g :: gs => (c :: g) :: gs

def parsePlannedDate (o : Option String) : Option JsDate :=
  match o with
  | none => none
  | some s =>
    if s = "" then none
    else
      let parts := (splitOnChar '/' s.data).map String.mk
      let day := jsToNumber (parts.get? 0)
      let month := jsToNumber (parts.get? 1)
      let year := jsToNumber (parts.get? 2)
      some (mkJsDate year month day)

/-- The `time_window {start, end}` object of an extracted delivery. -/
structure TimeWindow where
  start : Option String
  «end» : Option String
deriving DecidableEq, Repr

/-- One extracted delivery, as handed to `storeDelivery`. -/
structure DeliveryInput where
  contact_name : Option String
  address : Option String
  postcode : Option String
  booking_ref : Option String
  arc_number : Option String
  contact_phone : Option String
  est_weight_kg : JsVal
  total_cases : JsVal
  time_window : Option TimeWindow
  delivery_instructions : Option String
  delivery_type : Option String
deriving DecidableEq, Repr

/-- The `collection_depot {name, postcode}` object of an extracted manifest. -/
structure DepotInput where
  name : Option String
  postcode : Option String
deriving DecidableEq, Repr

/-- One extracted manifest (the extractor's output), as handed to
`storeManifest`. -/
structure ManifestInput where
  manifest_id : Option String
  planned_delivery_date : Option String
  vehicle_driver : Option String
  report_time_loading : Option String
  collection_depot : Option DepotInput
  deliveries : Option (List DeliveryInput)
deriving DecidableEq, Repr

/-- The processing metadata attached by the server before storing. -/
structure ProcessingInfo where
  filename : Option String
  file_size_bytes : Option Nat
  delivery_count : Nat
deriving DecidableEq, Repr

/-- `x || ''` on an optional string. -/
def optStr (o : Option String) : String := o.getD ""

/-- JavaScript truthiness of an optional string: `some s` with `s` nonempty. -/
def strTruthy : Option String → Option String
  | some s => if s = "" then none else some s
  | none => none

/-- A committed row of the `manifests` table.  `created_at`/`processed_at`
are the database-side `NOW()` defaults, threaded in as a timestamp
parameter. -/
structure ManifestRow where
  id : Nat
  manifest_id : String
  planned_delivery_date : Option JsDate
  vehicle_driver : String
  report_time_loading : Option String
  collection_depot_name : String
  collection_depot_postcode : String
  original_filename : String
  file_size_bytes : Nat
  delivery_count : Nat
  raw_manifest_data : ManifestInput
  created_at : Int
  processed_at : Int
deriving DecidableEq, Repr

/-- A committed row of the `deliveries` table. -/
structure DeliveryRow where
  manifest_id : Nat
  contact_name : String
  address : String
  postcode : String
  booking_ref : String
  arc_number : String
  contact_phone : Option String
  est_weight_kg : JsNum
  total_cases : JsNum
  time_window_start : Option String
  time_window_end : Option String
  delivery_instructions : String
  delivery_type : String
  delivery_order : Nat
  raw_delivery_data : DeliveryInput
deriving DecidableEq, Repr

/-- A row of the durable `batch_jobs` table.  The column defaults (zero
progress, status `processing`) are modelled from the spec: the table's DDL
is not under `src/`, only the `INSERT (job_id, total_files)` that relies on
those defaults. -/
structure BatchJobRow where
  job_id : String
  total_files : Nat
  processed_files : Nat
  successful_files : Nat
  failed_files : Nat
  status : String
  error_message : Option String
  completed_at : Option Int
deriving DecidableEq, Repr

/-- A row of the `batch_job_manifests` link table (the batch job is keyed
here by its `job_id` rather than its surrogate id, which never escapes the
service). -/
structure LinkRow where
  batch_job_id : String
  manifest_id : Nat
  processing_order : Nat
deriving DecidableEq, Repr

/-- The durable database state.  `nextManifestId` generates the surrogate
ids handed back by `INSERT ... RETURNING id`. -/
structure DbState where
  nextManifestId : Nat
  manifests : List ManifestRow
  deliveries : List DeliveryRow
  batchJobs : List BatchJobRow
  links : List LinkRow
deriving DecidableEq, Repr

/-- An open transaction: the base snapshot plus the buffered inserts,
merged on COMMIT and dropped on ROLLBACK. -/
structure TxClient where
  base : DbState
  pendingManifests : List ManifestRow
  pendingDeliveries : List DeliveryRow
deriving DecidableEq, Repr

/-- The delivery row built by `storeDelivery` (`database-service.js` lines
121-157) from one extracted delivery: time-window pieces gain a seconds
suffix, string fields default to the empty string, the phone to null, and
the numeric fields go through `parseFloat(x || 0)` / `parseInt(x || 0)`. -/
def buildDeliveryRow (manifestId : Nat) (d : DeliveryInput) (order : Nat) : DeliveryRow :=
  let tw := d.time_window.getD ⟨none, none⟩
  { manifest_id := manifestId
    contact_name := optStr d.contact_name
    address := optStr d.address
    postcode := optStr d.postcode
    booking_ref := optStr d.booking_ref
    arc_number := optStr d.arc_number
    contact_phone := strTruthy d.contact_phone
    est_weight_kg := jsParseFloat (jsOr d.est_weight_kg (.num 0))
    total_cases := jsParseInt (jsOr d.total_cases (.num 0))
    time_window_start := (strTruthy tw.start).map (· ++ ":00")
    time_window_end := (strTruthy tw.«end»).map (· ++ ":00")
    delivery_instructions := optStr d.delivery_instructions
    delivery_type := optStr d.delivery_type
    delivery_order := order
    raw_delivery_data := d }

/-- `storeDelivery`: one `INSERT INTO deliveries` inside the caller's
transaction; `fail` injects a failure of that single insert. -/
def storeDelivery (c : TxClient) (manifestId : Nat) (d : DeliveryInput) (order : Nat)
    (fail : Bool) : Except String TxClient :=
  if fail then .error "delivery insert failed"
  else .ok { c with pendingDeliveries := c.pendingDeliveries ++ [buildDeliveryRow manifestId d order] }

/-- The manifest row built by `storeManifest` (`database-service.js` lines
56-96). -/
def manifestRowFor (st : DbState) (m : ManifestInput) (p : ProcessingInfo) (now : Int) :
    ManifestRow :=
  let depot := m.collection_depot.getD ⟨none, none⟩
  { id := st.nextManifestId
    manifest_id := optStr m.manifest_id
    planned_delivery_date := parsePlannedDate m.planned_delivery_date
    vehicle_driver := optStr m.vehicle_driver
    report_time_loading := (strTruthy m.report_time_loading).map (· ++ ":00")
    collection_depot_name := optStr depot.name
    collection_depot_postcode := optStr depot.postcode
    original_filename := optStr p.filename
    file_size_bytes := p.file_size_bytes.getD 0
    delivery_count := (m.deliveries.getD []).length
    raw_manifest_data := m
    created_at := now
    processed_at := now }

/-- The delivery-insert loop of `storeManifest` (`for (let order = 0; ...)
storeDelivery(client, manifestId, deliveries[order], order + 1)`), with
`idx` numbering the queries of the transaction so a fault can name the
failing insert. -/
def insertDeliveriesLoop (c : TxClient) (manifestId : Nat) (ds : List DeliveryInput)
    (order : Nat) (failAt : Option Nat) (idx : Nat) : Except String TxClient :=
  match ds with
  | [] => .ok c
  | d :: rest =>
    match storeDelivery c manifestId d (order + 1) (failAt == some idx) with
    | .error e => .error e
    | .ok c' => insertDeliveriesLoop c' manifestId rest (order + 1) failAt (idx + 1)

/-- Result of one `storeManifest` call: the returned id or error, the
database state after COMMIT/ROLLBACK, and whether the pooled connection was
released. -/
structure StoreResult where
  result : Except String Nat
  state : DbState
  released : Bool
deriving Repr

/-- `storeManifest` (`database-service.js` lines 50-118): acquire a
connection, BEGIN, insert the manifest row (query index 0), insert each
delivery (query indices 1..n), COMMIT; on any insert failure ROLLBACK and
rethrow; release the connection in the `finally` on every path.  `failAt`
injects a failure of the insert with that query index. -/
def storeManifest (st : DbState) (m : ManifestInput) (p : ProcessingInfo) (now : Int)
    (failAt : Option Nat) : StoreResult :=
  let row := manifestRowFor st m p now
  let deliveries := m.deliveries.getD []
  if failAt == some 0 then
    { result := .error "manifest insert failed", state := st, released := true }
  else
    let c : TxClient := { base := st, pendingManifests := [row], pendingDeliveries := [] }
    match insertDeliveriesLoop c st.nextManifestId deliveries 0 failAt 1 with
    | .error e => { result := .error e, state := st, released := true }
    | .ok c' =>
      { result := .ok st.nextManifestId
        state := { st with
          nextManifestId := st.nextManifestId + 1
          manifests := st.manifests ++ c'.pendingManifests
          deliveries := st.deliveries ++ c'.pendingDeliveries }
        released := true }

/-- Specification-level list of the delivery rows the loop inserts,
starting at 0-based loop counter `order` (rows carry `order + 1`). -/
def deliveryRowsFrom (manifestId : Nat) (ds : List DeliveryInput) (order : Nat) :
    List DeliveryRow :=
  match ds with
  | [] => []
  | d :: rest => buildDeliveryRow manifestId d (order + 1) :: deliveryRowsFrom manifestId rest (order + 1)

/-- Insertion step of the embedding of `ORDER BY delivery_order`. -/
def insertByOrder (d : DeliveryRow) : List DeliveryRow → List DeliveryRow
  | [] => [d]
  | x :: xs =>
    if d.delivery_order ≤ x.delivery_order then d :: x :: xs else x :: insertByOrder d xs

/-- `ORDER BY delivery_order` over a result set, as an insertion sort. -/
def sortByOrder : List DeliveryRow → List DeliveryRow
  | [] => []
  | x :: xs => insertByOrder x (sortByOrder xs)

/-- `getManifestById` (`database-service.js` lines 161-189): the manifest
row with the given surrogate id, or null, together with its deliveries
ordered by order index. -/
def getManifestById (st : DbState) (id : Nat) : Option (ManifestRow × List DeliveryRow) :=
  match st.manifests.find? (fun r => r.id == id) with
  | none => none
  | some row => some (row, sortByOrder (st.deliveries.filter (fun d => d.manifest_id == id)))

/-- `ORDER BY created_at DESC LIMIT 1`: a row of maximal creation time
(the first one encountered on a tie). -/
def mostRecent : List ManifestRow → Option ManifestRow
  | [] => none
  | m :: ms =>
    match mostRecent ms with
    | none => some m
    | some m' => if m.created_at < m'.created_at then some m' else some m

/-- `getManifestByRef` (`database-service.js` lines 192-218): the
most-recently-created manifest whose reference matches, or null, with its
deliveries ordered by order index. -/
def getManifestByRef (st : DbState) (ref : String) : Option (ManifestRow × List DeliveryRow) :=
  match mostRecent (st.manifests.filter (fun r => r.manifest_id == ref)) with
  | none => none
  | some row => some (row, sortByOrder (st.deliveries.filter (fun d => d.manifest_id == row.id)))

/-- The dispatch of `GET /manifests/:manifestId` (`server.js` line 64). -/
inductive LookupRoute where
  | byId
  | byRef
deriving DecidableEq, Repr

/-- `manifestId.length === 36 && manifestId.includes('-')` routes to
`getManifestById`; every other string routes to `getManifestByRef`
(`includes('-')` is membership of the hyphen among the characters). -/
def routeManifestLookup (manifestId : String) : LookupRoute :=
  if manifestId.length = 36 ∧ '-' ∈ manifestId.data then .byId else .byRef

/-- SQL `LIKE` pattern matching (Postgres semantics, no escape character in
the patterns this service builds): `%` matches any sequence, `_` any single
character, anything else itself. -/
def likeMatch : List Char → List Char → Bool
  | [], s => s.isEmpty
  | a :: ps, s =>
    if a = '%' then (List.range (s.length + 1)).any (fun k => likeMatch ps (s.drop k))
    else
      match s with
      | [] => false
      | c :: cs => (if a = '_' then true else a == c) && likeMatch ps cs

/-- The postcode condition of `searchDeliveries` (`database-service.js`
lines 284-295): a filter of length at most 4 becomes `postcode LIKE
'filter%'`, a longer one `postcode = filter`. -/
def postcodeCond (filter pc : String) : Bool :=
  if filter.length ≤ 4 then likeMatch (filter.data ++ ['%']) pc.data
  else pc == filter

/-- `contact_name ILIKE '%name%'`: case-insensitive containment via `LIKE`
over lower-cased text. -/
def ilikeContains (needle hay : String) : Bool :=
  likeMatch ('%' :: needle.toLower.data ++ ['%']) hay.toLower.data

/-- The filters of `searchDeliveries`; a condition is added only when the
corresponding filter is truthy (present and nonempty). -/
structure DeliveryFilters where
  postcode : Option String
  contactName : Option String
  bookingRef : Option String
  limit : Option Nat
  offset : Option Nat
deriving DecidableEq, Repr

/-- The WHERE clause built by `searchDeliveries`. -/
def deliveryCondMatches (f : DeliveryFilters) (d : DeliveryRow) : Bool :=
  (match f.postcode with
   | some p => if p = "" then true else postcodeCond p d.postcode
   | none => true) &&
  (match f.contactName with
   | some n => if n = "" then true else ilikeContains n d.contact_name
   | none => true) &&
  (match f.bookingRef with
   | some b => if b = "" then true else d.booking_ref == b
   | none => true)

/-- `searchDeliveries` (`database-service.js` lines 276-329): rows of the
deliveries view satisfying the filters, with `LIMIT $n OFFSET $m`
(default limit 100, offset 0).  The `ORDER BY planned_delivery_date DESC,
delivery_order` sort runs over the joined view and is not modelled; the
claims concern which rows satisfy the WHERE clause. -/
def searchDeliveries (st : DbState) (f : DeliveryFilters) : List DeliveryRow :=
  (((st.deliveries.filter (deliveryCondMatches f)).drop (f.offset.getD 0)).take (f.limit.getD 100))

/-- `createBatchJob` (`database-service.js` lines 332-347): insert a
`batch_jobs` row with the schema defaults for the remaining columns.
Modelled from the spec for those defaults (status `processing`, zero
progress): the table's DDL is not under `src/`. -/
def createBatchJob (st : DbState) (jobId : String) (totalFiles : Nat) : DbState :=
  { st with batchJobs := st.batchJobs ++
      [{ job_id := jobId, total_files := totalFiles, processed_files := 0,
         successful_files := 0, failed_files := 0, status := "processing",
         error_message := none, completed_at := none }] }

/-- The `updates` object accepted by `updateBatchJob`.  The serialized
`results`/`errors` JSON columns are not tracked on the durable row (they
are opaque blobs); the update object records whether they were supplied. -/
structure JobUpdate where
  status : Option String
  processedFiles : Option Nat
  successfulFiles : Option Nat
  failedFiles : Option Nat
  resultsSupplied : Bool
  errorsSupplied : Bool
  errorMessage : Option String
deriving DecidableEq, Repr

/-- One durable row under `updateBatchJob`'s SET clause
(`database-service.js` lines 350-422): each supplied field overwrites the
column, and `completed_at` is stamped when the status update is
`completed`. -/
def applyJobUpdate (r : BatchJobRow) (u : JobUpdate) (now : Int) : BatchJobRow :=
  { r with
    status := u.status.getD r.status
    completed_at := if u.status == some "completed" then some now else r.completed_at
    processed_files := u.processedFiles.getD r.processed_files
    successful_files := u.successfulFiles.getD r.successful_files
    failed_files := u.failedFiles.getD r.failed_files
    error_message := match u.errorMessage with | some e => some e | none => r.error_message }

/-- `updateBatchJob`: apply the update to the row with the given job id. -/
def updateBatchJob (st : DbState) (jobId : String) (u : JobUpdate) (now : Int) : DbState :=
  { st with batchJobs := st.batchJobs.map (fun r => if r.job_id == jobId then applyJobUpdate r u now else r) }

/-- `linkBatchManifest` (`database-service.js` lines 425-439): `INSERT ...
SELECT ... WHERE bj.job_id = $1` inserts a link row only when the batch-job
row exists (and silently inserts nothing otherwise). -/
def linkBatchManifest (st : DbState) (jobId : String) (manifestId : Nat) (order : Nat) : DbState :=
  if st.batchJobs.any (fun r => r.job_id == jobId) then
    { st with links := st.links ++ [{ batch_job_id := jobId, manifest_id := manifestId, processing_order := order }] }
  else st

/-- An uploaded file of a batch, as multer hands it over. -/
structure BatchFile where
  originalname : String
  size : Nat
deriving DecidableEq, Repr

/-- One item of a batch run, with the outcome of the external extractor
(`processPDF`) and the fault injections for its two store operations. -/
structure BatchItem where
  file : BatchFile
  extract : Except String ManifestInput
  storeFailAt : Option Nat
  linkFail : Option String
deriving Repr

/-- An entry of the in-memory job's `results` array: the extracted data,
mutated with `processing_info` and then `database_id` or
`database_error`. -/
structure ResultEntry where
  data : ManifestInput
  processing : ProcessingInfo
  database_id : Option Nat
  database_error : Option String
deriving DecidableEq, Repr

/-- An entry of the in-memory job's `errors` array. -/
structure ErrorEntry where
  filename : String
  error : String
  timestamp : Int
deriving DecidableEq, Repr

/-- The in-memory job record kept in the `batchJobs` map (`server.js`
lines 356-366, mutated by `processBatchInBackground`). -/
structure JobState where
  status : String
  total_files : Nat
  processed_files : Nat
  results : List ResultEntry
  errors : List ErrorEntry
  store_in_db : Bool
  completed_at : Option Int
deriving DecidableEq, Repr

/-- The in-memory job record as initialised at submission. -/
def initialJobState (total : Nat) (storeInDb : Bool) : JobState :=
  { status := "processing", total_files := total, processed_files := 0,
    results := [], errors := [], store_in_db := storeInDb, completed_at := none }

/-- One call the batch loop makes against the durable store, recorded so
that what is (and is not) written during the loop is observable. -/
inductive DbCall where
  | storeCall (filename : String)
  | linkCall (jobId : String) (manifestId : Nat) (order : Nat)
  | updateCall (jobId : String) (u : JobUpdate)
deriving DecidableEq, Repr

/-- Whether a recorded call is an `updateBatchJob` call. -/
def DbCall.isUpdateCall : DbCall → Bool
  | .updateCall _ _ => true
  | _ => false

/-- The `processingInfo` object attached to a successfully extracted item
(`server.js` lines 409-414). -/
def processingInfoFor (file : BatchFile) (data : ManifestInput) : ProcessingInfo :=
  { filename := some file.originalname, file_size_bytes := some file.size,
    delivery_count := (data.deliveries.getD []).length }

/-- State after one iteration of the batch loop. -/
structure ItemStep where
  db : DbState
  job : JobState
  succ : Nat
  fail : Nat
  calls : List DbCall
deriving Repr

/-- One iteration of the loop of `processBatchInBackground` (`server.js`
lines 401-456): run the extractor; on success attach metadata, optionally
persist (a persistence failure is caught and recorded as `database_error`
on the result) and link to the batch job (a link failure is caught the same
way); on extraction failure record an error entry.  Either way the item's
result or error is appended and the in-memory processed count is
incremented.  The temporary-file `unlink` is an external effect with no
bearing on the claims and is not modelled. -/
def processItem (jobId : String) (storeInDb : Bool) (now : Int) (st : DbState)
    (job : JobState) (succ fail : Nat) (order : Nat) (item : BatchItem) : ItemStep :=
  match item.extract with
  | .ok data =>
    let pinfo := processingInfoFor item.file data
    if storeInDb then
      let r := storeManifest st data pinfo now item.storeFailAt
      match r.result with
      | .ok dbId =>
        match item.linkFail with
        | some msg =>
          { db := r.state
            job := { job with
              results := job.results ++ [{ data := data, processing := pinfo, database_id := some dbId, database_error := some msg }]
              processed_files := job.processed_files + 1 }
            succ := succ + 1
            fail := fail
            calls := [.storeCall item.file.originalname, .linkCall jobId dbId (order + 1)] }
        | none =>
          { db := linkBatchManifest r.state jobId dbId (order + 1)
            job := { job with
              results := job.results ++ [{ data := data, processing := pinfo, database_id := some dbId, database_error := none }]
              processed_files := job.processed_files + 1 }
            succ := succ + 1
            fail := fail
            calls := [.storeCall item.file.originalname, .linkCall jobId dbId (order + 1)] }
      | .error e =>
        { db := r.state
          job := { job with
            results := job.results ++ [{ data := data, processing := pinfo, database_id := none, database_error := some e }]
            processed_files := job.processed_files + 1 }
          succ := succ + 1
          fail := fail
          calls := [.storeCall item.file.originalname] }
    else
      { db := st
        job := { job with
          results := job.results ++ [{ data := data, processing := pinfo, database_id := none, database_error := none }]
          processed_files := job.processed_files + 1 }
        succ := succ + 1
        fail := fail
        calls := [] }
  | .error e =>
    { db := st
      job := { job with
        errors := job.errors ++ [{ filename := item.file.originalname, error := e, timestamp := now }]
        processed_files := job.processed_files + 1 }
      succ := succ
      fail := fail + 1
      calls := [] }

/-- The whole per-item loop over the submitted files. -/
def runItems (jobId : String) (storeInDb : Bool) (now : Int) : DbState → JobState → Nat → Nat → Nat → List BatchItem → ItemStep
  | st, job, succ, fail, _, [] => { db := st, job := job, succ := succ, fail := fail, calls := [] }
  | st, job, succ, fail, order, item :: rest =>
    let s := processItem jobId storeInDb now st job succ fail order item
    let r := runItems jobId storeInDb now s.db s.job s.succ s.fail (order + 1) rest
    { r with calls := s.calls ++ r.calls }

/-- The `updateBatchJob` payload of the finalization step (`server.js`
lines 465-472). -/
def finalUpdate (totalFiles succ fail : Nat) : JobUpdate :=
  { status := some "completed", processedFiles := some totalFiles,
    successfulFiles := some succ, failedFiles := some fail,
    resultsSupplied := true, errorsSupplied := true, errorMessage := none }

/-- The outcome of one whole background batch run. -/
structure BatchOutcome where
  db : DbState
  job : JobState
  succ : Nat
  fail : Nat
  calls : List DbCall
deriving Repr

/-- `processBatchInBackground` (`server.js` lines 395-498): run the loop
over all items from the freshly initialised in-memory job, then mark the
in-memory job `completed` and, when storing, issue one `updateBatchJob`
with the final counts; a failure of that durable write (`durableFail`) is
caught and logged and leaves every other effect in place.  Nothing in the
loop body escapes the per-item `try`, so the outer `catch` (status
`failed`) is unreachable in this model. -/
def processBatchInBackground (jobId : String) (files : List BatchItem) (storeInDb : Bool)
    (now : Int) (st : DbState) (durableFail : Bool) : BatchOutcome :=
  let job0 := initialJobState files.length storeInDb
  let r := runItems jobId storeInDb now st job0 0 0 0 files
  let job2 := { r.job with status := "completed", completed_at := some now }
  if storeInDb then
    let u := finalUpdate files.length r.succ r.fail
    { db := if durableFail then r.db else updateBatchJob r.db jobId u now
      job := job2, succ := r.succ, fail := r.fail
      calls := r.calls ++ [.updateCall jobId u] }
  else
    { db := r.db, job := job2, succ := r.succ, fail := r.fail, calls := r.calls }

/-- The aggregates of the `manifests` statistics query. -/
structure ManifestStats where
  total_manifests : Nat
  unique_dates : Nat
  unique_drivers : Nat
  total_deliveries : Option Nat
  avg_deliveries_per_manifest : Option ℚ
deriving DecidableEq, Repr

/-- The full result of `getStatistics`. -/
structure Statistics where
  manifests : ManifestStats
  recent_manifests : Nat
  total_batch_jobs : Nat
  completed_jobs : Nat
  failed_jobs : Nat
  processing_jobs : Nat
deriving DecidableEq, Repr

/-- `getStatistics` (`database-service.js` lines 459-500).  The first query
computes all five manifest aggregates over `WHERE planned_delivery_date IS
NOT NULL`; the second counts manifests processed in the last 24 hours; the
third counts batch jobs by status. -/
def getStatistics (st : DbState) (now : Int) : Statistics :=
  let dated := st.manifests.filter (fun m => m.planned_delivery_date.isSome)
  { manifests :=
    { total_manifests := dated.length
      unique_dates := ((dated.filterMap (fun m => m.planned_delivery_date)).dedup).length
      unique_drivers := ((dated.map (fun m => m.vehicle_driver)).dedup).length
      total_deliveries := if dated.isEmpty then none else some ((dated.map (fun m => m.delivery_count)).sum)
      avg_deliveries_per_manifest :=
        if dated.isEmpty then none
        else some (((dated.map (fun m => m.delivery_count)).sum : ℚ) / (dated.length : ℚ)) }
    recent_manifests := (st.manifests.filter (fun m => now - 86400 < m.processed_at)).length
    total_batch_jobs := st.batchJobs.length
    completed_jobs := (st.batchJobs.filter (fun r => r.status == "completed")).length
    failed_jobs := (st.batchJobs.filter (fun r => r.status == "failed")).length
    processing_jobs := (st.batchJobs.filter (fun r => r.status == "processing")).length }

/-! ## Specification-level auxiliary definitions and concrete fixtures -/

/-- The committed state produced by a successful `storeManifest`. -/
def committedState (st : DbState) (m : ManifestInput) (p : ProcessingInfo) (now : Int) : DbState :=
  { st with
    nextManifestId := st.nextManifestId + 1
    manifests := st.manifests ++ [manifestRowFor st m p now]
    deliveries := st.deliveries ++ deliveryRowsFrom st.nextManifestId (m.deliveries.getD []) 0 }

/-- The error entry an item contributes when its extraction fails. -/
def itemErrorEntry (now : Int) (item : BatchItem) : Option ErrorEntry :=
  match item.extract with
  | .ok _ => none
  | .error e => some { filename := item.file.originalname, error := e, timestamp := now }

/-- Whether an item's extraction succeeded. -/
def extractOk (item : BatchItem) : Bool :=
  match item.extract with
  | .ok _ => true
  | .error _ => false

/-- Every committed row's surrogate key is below the id generator: the
well-formedness the id generator maintains. -/
def dbWellFormed (st : DbState) : Bool :=
  st.manifests.all (fun r => r.id < st.nextManifestId) &&
  st.deliveries.all (fun d => d.manifest_id < st.nextManifestId)

/-- The empty database. -/
def exDb : DbState :=
  { nextManifestId := 0, manifests := [], deliveries := [], batchJobs := [], links := [] }

/-- A concrete well-formed extracted delivery. -/
def exDelivery1 : DeliveryInput :=
  { contact_name := some "Ann", address := some "1 Road", postcode := some "SW1A 1AA",
    booking_ref := some "B1", arc_number := none, contact_phone := none,
    est_weight_kg := .str "12.5", total_cases := .str "3",
    time_window := some { start := some "08:00", «end» := some "12:00" },
    delivery_instructions := none, delivery_type := none }

/-- A concrete extracted delivery with missing and empty numeric fields. -/
def exDelivery2 : DeliveryInput :=
  { contact_name := none, address := none, postcode := some "SW1B 2BB",
    booking_ref := none, arc_number := none, contact_phone := none,
    est_weight_kg := .undef, total_cases := .str "",
    time_window := none, delivery_instructions := none, delivery_type := none }

/-- A concrete extracted delivery whose numeric fields are non-numeric
strings. -/
def exDeliveryBad : DeliveryInput :=
  { contact_name := none, address := none, postcode := some "N1 1AA",
    booking_ref := none, arc_number := none, contact_phone := none,
    est_weight_kg := .str "abc", total_cases := .str "many",
    time_window := none, delivery_instructions := none, delivery_type := none }

/-- A concrete extracted manifest with two deliveries. -/
def exManifest : ManifestInput :=
  { manifest_id := some "MAN1", planned_delivery_date := some "25/12/2024",
    vehicle_driver := some "Bob", report_time_loading := some "06:30",
    collection_depot := some { name := some "Depot", postcode := some "N1 9AA" },
    deliveries := some [exDelivery1, exDelivery2] }

/-- A concrete extracted manifest whose planned-delivery-date string is not
a parsable DD/MM/YYYY date. -/
def exManifestBadDate : ManifestInput :=
  { manifest_id := some "MAN2", planned_delivery_date := some "banana",
    vehicle_driver := some "Cal", report_time_loading := none,
    collection_depot := none, deliveries := some [exDelivery2] }

/-- Concrete processing metadata. -/
def exInfo : ProcessingInfo :=
  { filename := some "a.pdf", file_size_bytes := some 100, delivery_count := 2 }

/-- A concrete batch item whose extraction succeeds. -/
def exItemOk : BatchItem :=
  { file := { originalname := "a.pdf", size := 100 }, extract := .ok exManifest,
    storeFailAt := none, linkFail := none }

/-- A concrete batch item whose extraction fails. -/
def exItemBad : BatchItem :=
  { file := { originalname := "b.pdf", size := 50 }, extract := .error "bad pdf",
    storeFailAt := none, linkFail := none }

/-- A concrete batch item whose extraction succeeds but whose
`storeManifest` call fails at the manifest insert. -/
def exItemDbFail : BatchItem :=
  { file := { originalname := "c.pdf", size := 70 }, extract := .ok exManifest,
    storeFailAt := some 0, linkFail := none }

/-- A committed manifest row with a non-null planned date and driver A. -/
def exRow1 : ManifestRow :=
  { id := 0, manifest_id := "M1", planned_delivery_date := some (.valid 2024 11 25),
    vehicle_driver := "A", report_time_loading := none, collection_depot_name := "",
    collection_depot_postcode := "", original_filename := "", file_size_bytes := 0,
    delivery_count := 2, raw_manifest_data := exManifest, created_at := 0, processed_at := 0 }

/-- A committed manifest row with a null planned date and driver B. -/
def exRow2 : ManifestRow :=
  { id := 1, manifest_id := "M2", planned_delivery_date := none,
    vehicle_driver := "B", report_time_loading := none, collection_depot_name := "",
    collection_depot_postcode := "", original_filename := "", file_size_bytes := 0,
    delivery_count := 5, raw_manifest_data := exManifest, created_at := 1, processed_at := 0 }

/-- A database with one dated and one undated manifest. -/
def exDbStats : DbState :=
  { nextManifestId := 2, manifests := [exRow1, exRow2], deliveries := [], batchJobs := [], links := [] }

/-! ## Lemmas about the transactional write path -/

theorem deliveryRowsFrom_length (mid : Nat) (ds : List DeliveryInput) (o : Nat) :
    (deliveryRowsFrom mid ds o).length = ds.length := by
  induction ds generalizing o with
  | nil => rfl
  | cons d rest ih => simp [deliveryRowsFrom, ih]

theorem deliveryRowsFrom_manifest_id (mid : Nat) (ds : List DeliveryInput) (o : Nat) :
    ∀ r ∈ deliveryRowsFrom mid ds o, r.manifest_id = mid := by
  induction ds generalizing o with
  | nil => intro r hr; simp [deliveryRowsFrom] at hr
  | cons d rest ih =>
    intro r hr
    simp only [deliveryRowsFrom, List.mem_cons] at hr
    rcases hr with h | h
    · subst h; rfl
    · exact ih (o + 1) r h

theorem deliveryRowsFrom_orders (mid : Nat) (ds : List DeliveryInput) (o : Nat) :
    (deliveryRowsFrom mid ds o).map (fun r => r.delivery_order) = List.range' (o + 1) ds.length := by
  induction ds generalizing o with
  | nil => rfl
  | cons d rest ih =>
    simp only [deliveryRowsFrom, List.map_cons, List.length_cons, List.range'_succ, ih]
    rfl

theorem deliveryRowsFrom_raw (mid : Nat) (ds : List DeliveryInput) (o : Nat) :
    (deliveryRowsFrom mid ds o).map (fun r => r.raw_delivery_data) = ds := by
  induction ds generalizing o with
  | nil => rfl
  | cons d rest ih => simp [deliveryRowsFrom, ih]; rfl

theorem deliveryRowsFrom_order_lb (mid : Nat) (ds : List DeliveryInput) (o : Nat) :
    ∀ r ∈ deliveryRowsFrom mid ds o, o + 1 ≤ r.delivery_order := by
  induction ds generalizing o with
  | nil => intro r hr; simp [deliveryRowsFrom] at hr
  | cons d rest ih =>
    intro r hr
    simp only [deliveryRowsFrom, List.mem_cons] at hr
    rcases hr with h | h
    · subst h; exact le_refl _
    · exact Nat.le_of_succ_le (ih (o + 1) r h)

theorem deliveryRowsFrom_pairwise (mid : Nat) (ds : List DeliveryInput) (o : Nat) :
    List.Pairwise (fun a b => a.delivery_order ≤ b.delivery_order) (deliveryRowsFrom mid ds o) := by
  induction ds generalizing o with
  | nil => exact List.Pairwise.nil
  | cons d rest ih =>
    refine List.Pairwise.cons ?_ (ih (o + 1))
    intro r hr
    have := deliveryRowsFrom_order_lb mid rest (o + 1) r hr
    have hd : (buildDeliveryRow mid d (o + 1)).delivery_order = o + 1 := rfl
    omega

theorem insertByOrder_of_le (d : DeliveryRow) (l : List DeliveryRow)
    (h : ∀ x ∈ l, d.delivery_order ≤ x.delivery_order) : insertByOrder d l = d :: l := by
  cases l with
  | nil => rfl
  | cons x xs =>
    have hx := h x (List.mem_cons_self x xs)
    simp [insertByOrder, hx]

theorem sortByOrder_of_pairwise (l : List DeliveryRow)
    (h : List.Pairwise (fun a b => a.delivery_order ≤ b.delivery_order) l) :
    sortByOrder l = l := by
  induction l with
  | nil => rfl
  | cons x xs ih =>
    rcases List.pairwise_cons.mp h with ⟨hx, hxs⟩
    rw [sortByOrder, ih hxs, insertByOrder_of_le x xs hx]

theorem insertDeliveriesLoop_ok {ds : List DeliveryInput} {c : TxClient} {mid o idx : Nat}
    {failAt : Option Nat} {c' : TxClient}
    (h : insertDeliveriesLoop c mid ds o failAt idx = .ok c') :
    c'.base = c.base ∧ c'.pendingManifests = c.pendingManifests ∧
    c'.pendingDeliveries = c.pendingDeliveries ++ deliveryRowsFrom mid ds o := by
  induction ds generalizing c o idx with
  | nil =>
    simp only [insertDeliveriesLoop] at h
    cases h
    simp [deliveryRowsFrom]
  | cons d rest ih =>
    rw [insertDeliveriesLoop, storeDelivery] at h
    by_cases hf : (failAt == some idx) = true
    · rw [if_pos hf] at h
      simp at h
    · rw [if_neg hf] at h
      simp only at h
      obtain ⟨hb, hm, hd⟩ := ih h
      refine ⟨hb, hm, ?_⟩
      rw [hd]
      simp [deliveryRowsFrom]

theorem insertDeliveriesLoop_no_fault (mid : Nat) (ds : List DeliveryInput) (o idx : Nat)
    (c : TxClient) :
    ∃ c', insertDeliveriesLoop c mid ds o none idx = .ok c' := by
  induction ds generalizing c o idx with
  | nil => exact ⟨c, rfl⟩
  | cons d rest ih =>
    rw [insertDeliveriesLoop, storeDelivery]
    rw [if_neg (by simp : ¬((none : Option Nat) == some idx) = true)]
    exact ih _ _ _

theorem storeManifest_spec (st : DbState) (m : ManifestInput) (p : ProcessingInfo)
    (now : Int) (failAt : Option Nat) :
    (storeManifest st m p now failAt).released = true ∧
    (∀ e, (storeManifest st m p now failAt).result = .error e →
      (storeManifest st m p now failAt).state = st) ∧
    (∀ id, (storeManifest st m p now failAt).result = .ok id →
      id = st.nextManifestId ∧
      (storeManifest st m p now failAt).state = committedState st m p now) := by
  rw [storeManifest]
  by_cases h0 : (failAt == some 0) = true
  · rw [if_pos h0]
    refine ⟨rfl, fun e _ => rfl, fun id hid => by simp at hid⟩
  · rw [if_neg h0]
    simp only
    cases hloop : insertDeliveriesLoop
        { base := st, pendingManifests := [manifestRowFor st m p now], pendingDeliveries := [] }
        st.nextManifestId (m.deliveries.getD []) 0 failAt 1 with
    | error e =>
      refine ⟨rfl, fun e' _ => rfl, fun id hid => by simp at hid⟩
    | ok c' =>
      obtain ⟨hb, hm, hd⟩ := insertDeliveriesLoop_ok hloop
      simp only at hm hd
      refine ⟨rfl, fun e he => by simp at he, fun id hid => ?_⟩
      have hid' : st.nextManifestId = id := by simpa using hid
      subst hid'
      refine ⟨rfl, ?_⟩
      simp only [committedState, hm, hd]
      rfl

theorem storeManifest_no_fault_ok (st : DbState) (m : ManifestInput) (p : ProcessingInfo)
    (now : Int) :
    (storeManifest st m p now none).result = .ok st.nextManifestId := by
  rw [storeManifest]
  simp only [if_neg (by simp : ¬((none : Option Nat) == some 0) = true)]
  obtain ⟨c', hc'⟩ := insertDeliveriesLoop_no_fault st.nextManifestId (m.deliveries.getD []) 0 1
      { base := st, pendingManifests := [manifestRowFor st m p now], pendingDeliveries := [] }
  rw [hc']

/-! ## Lemmas about the read paths -/

theorem mostRecent_eq_none {l : List ManifestRow} : mostRecent l = none ↔ l = [] := by
  cases l with
  | nil => simp [mostRecent]
  | cons x xs =>
    rw [mostRecent]
    cases hx : mostRecent xs with
    | none => simp
    | some m' => by_cases h : x.created_at < m'.created_at <;> simp [h]

theorem mostRecent_mem {l : List ManifestRow} {m : ManifestRow} (h : mostRecent l = some m) :
    m ∈ l := by
  induction l with
  | nil => simp [mostRecent] at h
  | cons x xs ih =>
    rw [mostRecent] at h
    cases hx : mostRecent xs with
    | none =>
      rw [hx] at h
      simp only at h
      cases h
      exact List.mem_cons_self _ _
    | some m' =>
      rw [hx] at h
      simp only at h
      by_cases hlt : x.created_at < m'.created_at
      · rw [if_pos hlt] at h; cases h; exact List.mem_cons_of_mem _ (ih hx)
      · rw [if_neg hlt] at h; cases h; exact List.mem_cons_self _ _

theorem mostRecent_max {l : List ManifestRow} {m : ManifestRow} (h : mostRecent l = some m) :
    ∀ x ∈ l, x.created_at ≤ m.created_at := by
  induction l generalizing m with
  | nil => simp [mostRecent] at h
  | cons a xs ih =>
    rw [mostRecent] at h
    cases hr : mostRecent xs with
    | none =>
      rw [hr] at h
      simp only at h
      cases h
      have hxs : xs = [] := mostRecent_eq_none.mp hr
      subst hxs
      intro x hx
      simp at hx
      subst hx
      exact le_refl _
    | some m' =>
      rw [hr] at h
      simp only at h
      intro x hx
      rcases List.mem_cons.mp hx with hxa | hxs
      · subst hxa
        by_cases hlt : x.created_at < m'.created_at
        · rw [if_pos hlt] at h; cases h; exact le_of_lt hlt
        · rw [if_neg hlt] at h; cases h; exact le_refl _
      · have hxm' := ih hr x hxs
        by_cases hlt : a.created_at < m'.created_at
        · rw [if_pos hlt] at h; cases h; exact hxm'
        · rw [if_neg hlt] at h; cases h; exact le_trans hxm' (le_of_not_lt hlt)

/-! ## Lemmas about SQL LIKE matching -/

theorem likeMatch_percent_any (s : List Char) : likeMatch ['%'] s = true := by
  simp only [likeMatch]
  rw [if_pos trivial]
  refine List.any_eq_true.mpr ⟨s.length, List.mem_range.mpr (Nat.lt_succ_self _), ?_⟩
  rw [List.drop_length]
  rfl

theorem likeMatch_append_percent (f rest : List Char) :
    likeMatch (f ++ ['%']) (f ++ rest) = true := by
  induction f with
  | nil => simpa using likeMatch_percent_any rest
  | cons a f ih =>
    rw [List.cons_append, List.cons_append]
    simp only [likeMatch]
    by_cases ha : a = '%'
    · rw [if_pos ha]
      refine List.any_eq_true.mpr ⟨1, List.mem_range.mpr (by simp), ?_⟩
      simpa using ih
    · rw [if_neg ha]
      rw [Bool.and_eq_true]
      refine ⟨?_, ih⟩
      by_cases hu : a = '_'
      · rw [if_pos hu]
      · rw [if_neg hu]; exact beq_self_eq_true a

/-! ## Lemmas about the batch processor -/

theorem processItem_extract_ok {item : BatchItem} {data : ManifestInput}
    (h : item.extract = .ok data) (jobId : String) (storeInDb : Bool) (now : Int)
    (st : DbState) (job : JobState) (succ fail order : Nat) :
    (processItem jobId storeInDb now st job succ fail order item).job.results.length = job.results.length + 1 ∧
    (processItem jobId storeInDb now st job succ fail order item).job.errors = job.errors ∧
    (processItem jobId storeInDb now st job succ fail order item).job.processed_files = job.processed_files + 1 ∧
    (processItem jobId storeInDb now st job succ fail order item).job.status = job.status ∧
    (processItem jobId storeInDb now st job succ fail order item).job.total_files = job.total_files ∧
    (processItem jobId storeInDb now st job succ fail order item).succ = succ + 1 ∧
    (processItem jobId storeInDb now st job succ fail order item).fail = fail := by
  cases storeInDb with
  | false => simp [processItem, h]
  | true =>
    simp only [processItem, h]
    cases hr : (storeManifest st data (processingInfoFor item.file data) now item.storeFailAt).result with
    | ok dbId =>
      cases hl : item.linkFail with
      | none => simp [hr, hl]
      | some msg => simp [hr, hl]
    | error e => simp [hr]

theorem processItem_extract_err {item : BatchItem} {e : String}
    (h : item.extract = .error e) (jobId : String) (storeInDb : Bool) (now : Int)
    (st : DbState) (job : JobState) (succ fail order : Nat) :
    (processItem jobId storeInDb now st job succ fail order item).job.results = job.results ∧
    (processItem jobId storeInDb now st job succ fail order item).job.errors =
      job.errors ++ [{ filename := item.file.originalname, error := e, timestamp := now }] ∧
    (processItem jobId storeInDb now st job succ fail order item).job.processed_files = job.processed_files + 1 ∧
    (processItem jobId storeInDb now st job succ fail order item).job.status = job.status ∧
    (processItem jobId storeInDb now st job succ fail order item).job.total_files = job.total_files ∧
    (processItem jobId storeInDb now st job succ fail order item).succ = succ ∧
    (processItem jobId storeInDb now st job succ fail order item).fail = fail + 1 := by
  simp [processItem, h]

theorem processItem_no_update_call (jobId : String) (storeInDb : Bool) (now : Int)
    (st : DbState) (job : JobState) (succ fail order : Nat) (item : BatchItem) :
    (processItem jobId storeInDb now st job succ fail order item).calls.filter DbCall.isUpdateCall = [] := by
  cases hx : item.extract with
  | ok data =>
    cases storeInDb with
    | false => simp [processItem, hx]
    | true =>
      simp only [processItem, hx]
      cases hr : (storeManifest st data (processingInfoFor item.file data) now item.storeFailAt).result with
      | ok dbId =>
        cases hl : item.linkFail with
        | none => simp [hr, hl, DbCall.isUpdateCall]
        | some msg => simp [hr, hl, DbCall.isUpdateCall]
      | error e => simp [hr, DbCall.isUpdateCall]
  | error e => simp [processItem, hx]

theorem runItems_spec (jobId : String) (storeInDb : Bool) (now : Int)
    (items : List BatchItem) :
    ∀ (st : DbState) (job : JobState) (succ fail order : Nat),
    (runItems jobId storeInDb now st job succ fail order items).job.processed_files = job.processed_files + items.length ∧
    (runItems jobId storeInDb now st job succ fail order items).job.status = job.status ∧
    (runItems jobId storeInDb now st job succ fail order items).job.total_files = job.total_files ∧
    (runItems jobId storeInDb now st job succ fail order items).job.results.length = job.results.length + items.countP extractOk ∧
    (runItems jobId storeInDb now st job succ fail order items).job.errors = job.errors ++ items.filterMap (itemErrorEntry now) ∧
    (runItems jobId storeInDb now st job succ fail order items).succ = succ + items.countP extractOk ∧
    (runItems jobId storeInDb now st job succ fail order items).fail = fail + items.countP (fun i => !extractOk i) := by
  induction items with
  | nil =>
    intro st job succ fail order
    simp [runItems]
  | cons item rest ih =>
    intro st job succ fail order
    rw [runItems]
    simp only
    cases hx : item.extract with
    | ok data =>
      obtain ⟨hr1, hr2, hr3, hr4, hr5, hr6, hr7⟩ :=
        processItem_extract_ok hx jobId storeInDb now st job succ fail order
      obtain ⟨ih1, ih2, ih3, ih4, ih5, ih6, ih7⟩ :=
        ih (processItem jobId storeInDb now st job succ fail order item).db
          (processItem jobId storeInDb now st job succ fail order item).job
          (processItem jobId storeInDb now st job succ fail order item).succ
          (processItem jobId storeInDb now st job succ fail order item).fail (order + 1)
      refine ⟨?_, ?_, ?_, ?_, ?_, ?_, ?_⟩
      · rw [ih1, hr3]; simp [List.length_cons]; omega
      · rw [ih2, hr4]
      · rw [ih3, hr5]
      · rw [ih4, hr1, List.countP_cons]; simp [extractOk, hx]; omega
      · rw [ih5, hr2, List.filterMap_cons]; simp [itemErrorEntry, hx]
      · rw [ih6, hr6, List.countP_cons]; simp [extractOk, hx]; omega
      · rw [ih7, hr7, List.countP_cons]; simp [extractOk, hx]
    | error e =>
      obtain ⟨hr1, hr2, hr3, hr4, hr5, hr6, hr7⟩ :=
        processItem_extract_err hx jobId storeInDb now st job succ fail order
      obtain ⟨ih1, ih2, ih3, ih4, ih5, ih6, ih7⟩ :=
        ih (processItem jobId storeInDb now st job succ fail order item).db
          (processItem jobId storeInDb now st job succ fail order item).job
          (processItem jobId storeInDb now st job succ fail order item).succ
          (processItem jobId storeInDb now st job succ fail order item).fail (order + 1)
      refine ⟨?_, ?_, ?_, ?_, ?_, ?_, ?_⟩
      · rw [ih1, hr3]; simp [List.length_cons]; omega
      · rw [ih2, hr4]
      · rw [ih3, hr5]
      · rw [ih4, hr1, List.countP_cons]; simp [extractOk, hx]
      · rw [ih5, hr2, List.filterMap_cons]; simp [itemErrorEntry, hx]
      · rw [ih6, hr6, List.countP_cons]; simp [extractOk, hx]
      · rw [ih7, hr7, List.countP_cons]; simp [extractOk, hx]; omega

theorem runItems_no_update_call (jobId : String) (storeInDb : Bool) (now : Int)
    (items : List BatchItem) :
    ∀ (st : DbState) (job : JobState) (succ fail order : Nat),
    (runItems jobId storeInDb now st job succ fail order items).calls.filter DbCall.isUpdateCall = [] := by
  induction items with
  | nil => intro st job succ fail order; simp [runItems]
  | cons item rest ih =>
    intro st job succ fail order
    rw [runItems]
    simp only [List.filter_append]
    rw [processItem_no_update_call, ih]
    rfl

/-! ## Claim theorems -/

/-- C1: for every `storeManifest` call, either the manifest row and every
one of its delivery rows are committed together (success appends exactly
the manifest row and its `n` delivery rows, all carrying the returned id),
or — if any single insert fails — the transaction is rolled back and the
state is unchanged, so zero rows for that manifest are visible; and the
acquired connection is released on every exit path. -/
theorem c1_storeManifest_atomic (st : DbState) (m : ManifestInput) (p : ProcessingInfo)
    (now : Int) (failAt : Option Nat) :
    (storeManifest st m p now failAt).released = true ∧
    (∀ e, (storeManifest st m p now failAt).result = .error e →
      (storeManifest st m p now failAt).state = st) ∧
    (∀ id, (storeManifest st m p now failAt).result = .ok id →
      (storeManifest st m p now failAt).state.manifests = st.manifests ++ [manifestRowFor st m p now] ∧
      (storeManifest st m p now failAt).state.deliveries =
        st.deliveries ++ deliveryRowsFrom id (m.deliveries.getD []) 0 ∧
      (∀ r ∈ deliveryRowsFrom id (m.deliveries.getD []) 0, r.manifest_id = id) ∧
      (deliveryRowsFrom id (m.deliveries.getD []) 0).length = (m.deliveries.getD []).length) := by
  obtain ⟨h1, h2, h3⟩ := storeManifest_spec st m p now failAt
  refine ⟨h1, h2, fun id hid => ?_⟩
  obtain ⟨hid', hstate⟩ := h3 id hid
  subst hid'
  rw [hstate]
  exact ⟨rfl, rfl, deliveryRowsFrom_manifest_id _ _ _, deliveryRowsFrom_length _ _ _⟩

/-- Witness for C1: on the concrete two-delivery manifest, a fault at the
first delivery insert yields an error, leaves the empty database unchanged
and still releases the connection; the fault-free run commits. -/
theorem c1_witness :
    (storeManifest exDb exManifest exInfo 5 (some 1)).state = exDb ∧
    (storeManifest exDb exManifest exInfo 5 (some 1)).released = true := by
  have h := c1_storeManifest_atomic exDb exManifest exInfo 5 (some 1)
  exact ⟨h.2.1 "delivery insert failed" rfl, h.1⟩

/-- C3: reading a successfully stored manifest back through
`getManifestById` yields a `delivery_count` equal to the number of delivery
rows returned, order indices that are exactly `1..count` (dense, no gaps or
repeats), and rows in extraction order. -/
theorem c3_readback_invariant (st : DbState) (m : ManifestInput) (p : ProcessingInfo)
    (now : Int) (failAt : Option Nat) (id : Nat)
    (hwf : dbWellFormed st = true)
    (hok : (storeManifest st m p now failAt).result = .ok id) :
    ∃ row ds, getManifestById (storeManifest st m p now failAt).state id = some (row, ds) ∧
      row.delivery_count = ds.length ∧
      ds.map (fun d => d.delivery_order) = List.range' 1 ds.length ∧
      ds.map (fun d => d.raw_delivery_data) = m.deliveries.getD [] := by
  obtain ⟨hid, hstate⟩ := (storeManifest_spec st m p now failAt).2.2 id hok
  subst hid
  rw [dbWellFormed, Bool.and_eq_true, List.all_eq_true, List.all_eq_true] at hwf
  have hman : ∀ r ∈ st.manifests, r.id < st.nextManifestId := fun r hr => by
    simpa using hwf.1 r hr
  have hdel : ∀ d ∈ st.deliveries, d.manifest_id < st.nextManifestId := fun d hd => by
    simpa using hwf.2 d hd
  rw [hstate]
  have hfind : (committedState st m p now).manifests.find? (fun r => r.id == st.nextManifestId) =
      some (manifestRowFor st m p now) := by
    show (st.manifests ++ [manifestRowFor st m p now]).find? _ = _
    rw [List.find?_append]
    have h1 : st.manifests.find? (fun r => r.id == st.nextManifestId) = none :=
      List.find?_eq_none.mpr (fun x hx => by
        simp only [beq_iff_eq]
        exact Nat.ne_of_lt (hman x hx))
    rw [h1]
    simp [List.find?, manifestRowFor]
  have hfilter : (committedState st m p now).deliveries.filter (fun d => d.manifest_id == st.nextManifestId) =
      deliveryRowsFrom st.nextManifestId (m.deliveries.getD []) 0 := by
    show (st.deliveries ++ deliveryRowsFrom st.nextManifestId (m.deliveries.getD []) 0).filter _ = _
    rw [List.filter_append]
    have h1 : st.deliveries.filter (fun d => d.manifest_id == st.nextManifestId) = [] := by
      rw [List.filter_eq_nil_iff]
      intro a ha
      simp only [beq_iff_eq]
      exact Nat.ne_of_lt (hdel a ha)
    have h2 : (deliveryRowsFrom st.nextManifestId (m.deliveries.getD []) 0).filter
        (fun d => d.manifest_id == st.nextManifestId) =
        deliveryRowsFrom st.nextManifestId (m.deliveries.getD []) 0 := by
      rw [List.filter_eq_self]
      intro a ha
      simp only [beq_iff_eq]
      exact deliveryRowsFrom_manifest_id _ _ _ a ha
    rw [h1, h2, List.nil_append]
  refine ⟨manifestRowFor st m p now, deliveryRowsFrom st.nextManifestId (m.deliveries.getD []) 0,
    ?_, ?_, ?_, deliveryRowsFrom_raw _ _ _⟩
  · rw [getManifestById, hfind]
    simp only
    rw [hfilter, sortByOrder_of_pairwise _ (deliveryRowsFrom_pairwise _ _ _)]
  · rw [deliveryRowsFrom_length]
    rfl
  · rw [deliveryRowsFrom_orders, deliveryRowsFrom_length]

/-- Witness for C3: the concrete two-delivery manifest stored into the
empty database reads back with matching count and order indices 1, 2. -/
theorem c3_witness :
    ∃ row ds, getManifestById (storeManifest exDb exManifest exInfo 5 none).state 0 = some (row, ds) ∧
      row.delivery_count = ds.length ∧
      ds.map (fun d => d.delivery_order) = List.range' 1 ds.length ∧
      ds.map (fun d => d.raw_delivery_data) = exManifest.deliveries.getD [] :=
  c3_readback_invariant exDb exManifest exInfo 5 none 0 rfl rfl

theorem processBatch_status (jobId : String) (files : List BatchItem) (storeInDb : Bool)
    (now : Int) (st : DbState) (durableFail : Bool) :
    (processBatchInBackground jobId files storeInDb now st durableFail).job.status = "completed" := by
  cases storeInDb <;> simp [processBatchInBackground]

theorem processBatch_proj (jobId : String) (files : List BatchItem) (storeInDb : Bool)
    (now : Int) (st : DbState) (durableFail : Bool) :
    (processBatchInBackground jobId files storeInDb now st durableFail).job =
      { (runItems jobId storeInDb now st (initialJobState files.length storeInDb) 0 0 0 files).job with
        status := "completed", completed_at := some now } ∧
    (processBatchInBackground jobId files storeInDb now st durableFail).succ =
      (runItems jobId storeInDb now st (initialJobState files.length storeInDb) 0 0 0 files).succ ∧
    (processBatchInBackground jobId files storeInDb now st durableFail).fail =
      (runItems jobId storeInDb now st (initialJobState files.length storeInDb) 0 0 0 files).fail ∧
    (processBatchInBackground jobId files storeInDb now st durableFail).calls =
      (runItems jobId storeInDb now st (initialJobState files.length storeInDb) 0 0 0 files).calls ++
      (if storeInDb then
        [DbCall.updateCall jobId (finalUpdate files.length
          (runItems jobId storeInDb now st (initialJobState files.length storeInDb) 0 0 0 files).succ
          (runItems jobId storeInDb now st (initialJobState files.length storeInDb) 0 0 0 files).fail)]
      else []) := by
  cases storeInDb <;> simp [processBatchInBackground]

/-- C2: for a batch of three items in which exactly the second item's
extraction fails, the finished job shows three processed files, two
successes, one failure, a single error entry naming the second item's
filename, two results, terminal status `completed`, and (when storing) a
final durable update carrying exactly those counts — one failing item never
aborts the batch or fails the job. -/
theorem c2_batch_partial_failure (jobId : String) (i1 i2 i3 : BatchItem)
    (d1 d3 : ManifestInput) (e : String) (storeInDb durableFail : Bool) (now : Int) (st : DbState)
    (h1 : i1.extract = .ok d1) (h2 : i2.extract = .error e) (h3 : i3.extract = .ok d3) :
    (processBatchInBackground jobId [i1, i2, i3] storeInDb now st durableFail).job.processed_files = 3 ∧
    (processBatchInBackground jobId [i1, i2, i3] storeInDb now st durableFail).succ = 2 ∧
    (processBatchInBackground jobId [i1, i2, i3] storeInDb now st durableFail).fail = 1 ∧
    (processBatchInBackground jobId [i1, i2, i3] storeInDb now st durableFail).job.errors =
      [{ filename := i2.file.originalname, error := e, timestamp := now }] ∧
    (processBatchInBackground jobId [i1, i2, i3] storeInDb now st durableFail).job.results.length = 2 ∧
    (processBatchInBackground jobId [i1, i2, i3] storeInDb now st durableFail).job.status = "completed" ∧
    (storeInDb = true →
      (processBatchInBackground jobId [i1, i2, i3] storeInDb now st durableFail).calls.getLast? =
        some (.updateCall jobId (finalUpdate 3 2 1))) := by
  obtain ⟨hjob, hsucc, hfail, hcalls⟩ :=
    processBatch_proj jobId [i1, i2, i3] storeInDb now st durableFail
  obtain ⟨q1, q2, q3, q4, q5, q6, q7⟩ :=
    runItems_spec jobId storeInDb now [i1, i2, i3] st
      (initialJobState [i1, i2, i3].length storeInDb) 0 0 0
  have hcount : List.countP extractOk [i1, i2, i3] = 2 := by
    simp [List.countP_cons, extractOk, h1, h2, h3]
  have hcountf : List.countP (fun i => !extractOk i) [i1, i2, i3] = 1 := by
    simp [List.countP_cons, extractOk, h1, h2, h3]
  have herr : List.filterMap (itemErrorEntry now) [i1, i2, i3] =
      [{ filename := i2.file.originalname, error := e, timestamp := now }] := by
    simp [List.filterMap_cons, itemErrorEntry, h1, h2, h3]
  rw [hcount] at q4 q6
  rw [hcountf] at q7
  rw [herr] at q5
  refine ⟨?_, ?_, ?_, ?_, ?_, processBatch_status _ _ _ _ _ _, ?_⟩
  · rw [hjob]
    simpa [initialJobState] using q1
  · rw [hsucc, q6]
  · rw [hfail, q7]
  · rw [hjob]
    simpa [initialJobState] using q5
  · rw [hjob]
    simpa [initialJobState] using q4
  · intro hsdb
    subst hsdb
    rw [hcalls, if_pos rfl, List.getLast?_concat, q6, q7]
    rfl

/-- Witness for C2 on concrete items: the first and third extract cleanly,
the second's extraction fails. -/
theorem c2_witness :
    (processBatchInBackground "job1" [exItemOk, exItemBad, exItemOk] true 0 exDb false).job.processed_files = 3 ∧
    (processBatchInBackground "job1" [exItemOk, exItemBad, exItemOk] true 0 exDb false).succ = 2 ∧
    (processBatchInBackground "job1" [exItemOk, exItemBad, exItemOk] true 0 exDb false).fail = 1 ∧
    (processBatchInBackground "job1" [exItemOk, exItemBad, exItemOk] true 0 exDb false).job.errors =
      [{ filename := "b.pdf", error := "bad pdf", timestamp := 0 }] ∧
    (processBatchInBackground "job1" [exItemOk, exItemBad, exItemOk] true 0 exDb false).job.results.length = 2 ∧
    (processBatchInBackground "job1" [exItemOk, exItemBad, exItemOk] true 0 exDb false).job.status = "completed" := by
  have h := c2_batch_partial_failure "job1" exItemOk exItemBad exItemOk exManifest exManifest
    "bad pdf" true false 0 exDb rfl rfl rfl
  exact ⟨h.1, h.2.1, h.2.2.1, h.2.2.2.1, h.2.2.2.2.1, h.2.2.2.2.2.1⟩

/-- C4 counterexample: the non-numeric weight string "abc" and case-count
string "many" are stored as NaN, not 0 — the claim that a non-numeric
string is coerced to 0 fails on the code. -/
theorem c4_counterexample :
    (buildDeliveryRow 0 exDeliveryBad 1).est_weight_kg = JsNum.nan ∧
    (buildDeliveryRow 0 exDeliveryBad 1).est_weight_kg ≠ JsNum.num 0 ∧
    (buildDeliveryRow 0 exDeliveryBad 1).total_cases = JsNum.nan ∧
    (buildDeliveryRow 0 exDeliveryBad 1).total_cases ≠ JsNum.num 0 := by
  refine ⟨rfl, ?_, rfl, ?_⟩ <;> decide

/-- C4 amended: a missing, null, or empty weight or case-count field is
stored as 0 and the delivery row is still inserted (and a fault-free
manifest write commits); a non-empty non-numeric string instead reaches
`parseFloat`/`parseInt` unconverted, so the stored value is their result,
which is NaN rather than 0 when the string has no leading numeric prefix. -/
theorem c4_amended_numeric_defaults (d : DeliveryInput) (mid order : Nat) (c : TxClient)
    (hw : d.est_weight_kg = .undef ∨ d.est_weight_kg = .nullv ∨ d.est_weight_kg = .str "")
    (hc : d.total_cases = .undef ∨ d.total_cases = .nullv ∨ d.total_cases = .str "") :
    (buildDeliveryRow mid d order).est_weight_kg = JsNum.num 0 ∧
    (buildDeliveryRow mid d order).total_cases = JsNum.num 0 ∧
    storeDelivery c mid d order false =
      .ok { c with pendingDeliveries := c.pendingDeliveries ++ [buildDeliveryRow mid d order] } ∧
    (∀ (st : DbState) (m : ManifestInput) (p : ProcessingInfo) (now : Int),
      (storeManifest st m p now none).result = .ok st.nextManifestId) := by
  refine ⟨?_, ?_, rfl, fun st m p now => storeManifest_no_fault_ok st m p now⟩
  · rcases hw with h | h | h <;>
      simp [buildDeliveryRow, jsOr, jsTruthy, h, jsParseFloat]
  · rcases hc with h | h | h <;>
      simp [buildDeliveryRow, jsOr, jsTruthy, h, jsParseInt, jsTrunc]

/-- Witness for C4 amended, at a delivery whose weight is missing and whose
case count is the empty string. -/
theorem c4_witness :
    (buildDeliveryRow 0 exDelivery2 1).est_weight_kg = JsNum.num 0 ∧
    (buildDeliveryRow 0 exDelivery2 1).total_cases = JsNum.num 0 := by
  have h := c4_amended_numeric_defaults exDelivery2 0 1
    { base := exDb, pendingManifests := [], pendingDeliveries := [] }
    (Or.inl rfl) (Or.inr (Or.inr rfl))
  exact ⟨h.1, h.2.1⟩

/-- C5 (evaluation at the failing input): for the unparsable date string
"banana" the computed planned delivery date is `Invalid Date`, not null —
the `catch` the source relies on never fires, so the non-null invalid value
is bound into the manifest INSERT instead of null. -/
theorem c5_unparsable_date_not_null :
    parsePlannedDate (some "banana") = some JsDate.invalid ∧
    parsePlannedDate (some "banana") ≠ none ∧
    (manifestRowFor exDb exManifestBadDate exInfo 5).planned_delivery_date = some JsDate.invalid := by
  refine ⟨?_, ?_, ?_⟩ <;> decide

/-- C6 counterexample: after the first item of a two-item batch completes,
the in-memory job's processed count is 1, yet the loop body issued no
`updateBatchJob` call and the durable batch-job row still shows zero
processed files — progress is not updated in both registries after each
item. -/
theorem c6_counterexample :
    (processItem "j" true 0 (createBatchJob exDb "j" 2) (initialJobState 2 true) 0 0 0 exItemOk).job.processed_files = 1 ∧
    (processItem "j" true 0 (createBatchJob exDb "j" 2) (initialJobState 2 true) 0 0 0 exItemOk).calls.filter DbCall.isUpdateCall = [] ∧
    ((processItem "j" true 0 (createBatchJob exDb "j" 2) (initialJobState 2 true) 0 0 0 exItemOk).db.batchJobs.map
      (fun r => r.processed_files)) = [0] := by
  refine ⟨?_, ?_, ?_⟩ <;> decide

/-- C6 amended: after each item only the in-memory registry's progress is
updated (the processed count increments and the loop body makes no durable
job-registry call); the durable registry receives a single `updateBatchJob`
only at finalization, and a failure of that durable write never fails or
rolls back the in-memory state. -/
theorem c6_amended_progress (jobId : String) (storeInDb : Bool) (now : Int) (st : DbState)
    (job : JobState) (succ fail order : Nat) (item : BatchItem) (files : List BatchItem)
    (durableFail : Bool) :
    (processItem jobId storeInDb now st job succ fail order item).job.processed_files = job.processed_files + 1 ∧
    (processItem jobId storeInDb now st job succ fail order item).calls.filter DbCall.isUpdateCall = [] ∧
    ((processBatchInBackground jobId files storeInDb now st durableFail).calls.filter DbCall.isUpdateCall =
      if storeInDb then
        [DbCall.updateCall jobId (finalUpdate files.length
          (runItems jobId storeInDb now st (initialJobState files.length storeInDb) 0 0 0 files).succ
          (runItems jobId storeInDb now st (initialJobState files.length storeInDb) 0 0 0 files).fail)]
      else []) ∧
    (processBatchInBackground jobId files storeInDb now st true).job =
      (processBatchInBackground jobId files storeInDb now st false).job := by
  refine ⟨?_, processItem_no_update_call _ _ _ _ _ _ _ _ _, ?_, ?_⟩
  · cases hx : item.extract with
    | ok data => exact (processItem_extract_ok hx jobId storeInDb now st job succ fail order).2.2.1
    | error e => exact (processItem_extract_err hx jobId storeInDb now st job succ fail order).2.2.1
  · obtain ⟨hjob, hsucc, hfail, hcalls⟩ := processBatch_proj jobId files storeInDb now st durableFail
    rw [hcalls, List.filter_append, runItems_no_update_call, List.nil_append]
    cases storeInDb with
    | false => rfl
    | true => simp [DbCall.isUpdateCall]
  · cases storeInDb <;> rfl

/-- C9 counterexample: with one dated and one undated manifest, the code's
`total_manifests` is 1 while there are 2 manifests, and `unique_drivers` is
1 while 2 distinct drivers exist over all manifests — the non-null-date
restriction applies to the count aggregates too, not only to the
deliveries-per-manifest aggregates. -/
theorem c9_counterexample :
    (getStatistics exDbStats 0).manifests.total_manifests = 1 ∧
    exDbStats.manifests.length = 2 ∧
    (getStatistics exDbStats 0).manifests.total_manifests ≠ exDbStats.manifests.length ∧
    (getStatistics exDbStats 0).manifests.unique_drivers = 1 ∧
    ((exDbStats.manifests.map (fun m => m.vehicle_driver)).dedup).length = 2 := by
  refine ⟨?_, ?_, ?_, ?_, ?_⟩ <;> decide

/-- C9 amended: every manifest aggregate of `getStatistics` — the total,
the distinct-date and distinct-driver counts included — ranges only over
manifests with a non-null planned delivery date; the last-24-hours count
ranges over all manifests and the batch-job counts group by status as the
claim says. -/
theorem c9_amended_statistics (st : DbState) (now : Int) :
    (getStatistics st now).manifests.total_manifests =
      st.manifests.countP (fun m => m.planned_delivery_date.isSome) ∧
    (getStatistics st now).manifests.unique_dates =
      (((st.manifests.filter (fun m => m.planned_delivery_date.isSome)).filterMap
        (fun m => m.planned_delivery_date)).dedup).length ∧
    (getStatistics st now).manifests.unique_drivers =
      (((st.manifests.filter (fun m => m.planned_delivery_date.isSome)).map
        (fun m => m.vehicle_driver)).dedup).length ∧
    (getStatistics st now).recent_manifests =
      st.manifests.countP (fun m => now - 86400 < m.processed_at) ∧
    (getStatistics st now).total_batch_jobs = st.batchJobs.length ∧
    (getStatistics st now).completed_jobs = st.batchJobs.countP (fun r => r.status == "completed") ∧
    (getStatistics st now).failed_jobs = st.batchJobs.countP (fun r => r.status == "failed") ∧
    (getStatistics st now).processing_jobs = st.batchJobs.countP (fun r => r.status == "processing") := by
  refine ⟨?_, rfl, rfl, ?_, rfl, ?_, ?_, ?_⟩ <;> rw [List.countP_eq_length_filter] <;> rfl

/-- C10: an item whose extraction succeeds but whose `storeManifest` call
throws is still counted as a successful file, its extraction result is
appended to the results list annotated with the database error (with no
database id) rather than to the errors list, no row is written to the
batch-job link table, and the batch job still finalizes as `completed`. -/
theorem c10_db_error_item (jobId : String) (now : Int) (st : DbState) (job : JobState)
    (succ fail order : Nat) (item : BatchItem) (data : ManifestInput) (e : String)
    (hx : item.extract = .ok data)
    (hs : (storeManifest st data (processingInfoFor item.file data) now item.storeFailAt).result = .error e) :
    (processItem jobId true now st job succ fail order item).job.results =
      job.results ++ [⟨data, processingInfoFor item.file data, none, some e⟩] ∧
    (processItem jobId true now st job succ fail order item).job.errors = job.errors ∧
    (processItem jobId true now st job succ fail order item).succ = succ + 1 ∧
    (processItem jobId true now st job succ fail order item).fail = fail ∧
    (processItem jobId true now st job succ fail order item).db.links = st.links ∧
    (∀ c ∈ (processItem jobId true now st job succ fail order item).calls,
      ∀ j mid o, c ≠ DbCall.linkCall j mid o) ∧
    (∀ (files : List BatchItem) (storeInDb durableFail : Bool),
      (processBatchInBackground jobId files storeInDb now st durableFail).job.status = "completed") := by
  have hstate : (storeManifest st data (processingInfoFor item.file data) now item.storeFailAt).state = st :=
    (storeManifest_spec st data (processingInfoFor item.file data) now item.storeFailAt).2.1 e hs
  simp only [processItem, hx, if_true]
  rw [hs]
  refine ⟨rfl, rfl, rfl, rfl, by rw [hstate], ?_, fun files sdb df => processBatch_status _ _ _ _ _ _⟩
  intro c hc j mid o
  simp only [List.mem_singleton] at hc
  subst hc
  intro hcontra
  cases hcontra

/-- Witness for C10: a concrete item that extracts cleanly but whose
manifest insert fails is recorded as a success annotated with the database
error, adds nothing to the errors list, and writes no link row. -/
theorem c10_witness :
    (processItem "job1" true 0 exDb (initialJobState 1 true) 0 0 0 exItemDbFail).job.results =
      [⟨exManifest, processingInfoFor exItemDbFail.file exManifest, none, some "manifest insert failed"⟩] ∧
    (processItem "job1" true 0 exDb (initialJobState 1 true) 0 0 0 exItemDbFail).job.errors = [] ∧
    (processItem "job1" true 0 exDb (initialJobState 1 true) 0 0 0 exItemDbFail).succ = 1 ∧
    (processItem "job1" true 0 exDb (initialJobState 1 true) 0 0 0 exItemDbFail).db.links = [] := by
  have h := c10_db_error_item "job1" 0 exDb (initialJobState 1 true) 0 0 0 exItemDbFail exManifest
    "manifest insert failed" rfl rfl
  exact ⟨h.1, h.2.1, h.2.2.1, h.2.2.2.2.1⟩

/-- C7: a postcode filter longer than 4 characters matches exactly that
postcode; a filter of length at most 4 matches every postcode that starts
with it (area prefix); "SW1" matches "SW1A 1AA" and "SW1B 2BB" but not
"SW2 1AA"; and every row returned by `searchDeliveries` under a postcode
filter satisfies the postcode condition. -/
theorem c7_postcode_filter :
    (∀ f pc : String, 4 < f.length → (postcodeCond f pc = true ↔ pc = f)) ∧
    (∀ f pc : String, f.length ≤ 4 → ∀ rest : List Char, pc.data = f.data ++ rest →
      postcodeCond f pc = true) ∧
    postcodeCond "SW1" "SW1A 1AA" = true ∧
    postcodeCond "SW1" "SW1B 2BB" = true ∧
    postcodeCond "SW1" "SW2 1AA" = false ∧
    postcodeCond "SW1A 1AA" "SW1A 1AA" = true ∧
    postcodeCond "SW1A 1AA" "SW1A 1AB" = false ∧
    (∀ (st : DbState) (flt : DeliveryFilters) (p : String), flt.postcode = some p →
      ∀ d ∈ searchDeliveries st flt, postcodeCond p d.postcode = true) := by
  have hempty : ∀ pc : String, postcodeCond "" pc = true := by
    intro pc
    rw [postcodeCond, if_pos (by simp)]
    exact likeMatch_percent_any pc.data
  refine ⟨?_, ?_, by decide, by decide, by decide, by decide, by decide, ?_⟩
  · intro f pc h
    rw [postcodeCond, if_neg (not_le.mpr h)]
    exact beq_iff_eq
  · intro f pc h rest hrest
    rw [postcodeCond, if_pos h, hrest]
    exact likeMatch_append_percent f.data rest
  · intro st flt p hp d hd
    have hd' : d ∈ st.deliveries.filter (deliveryCondMatches flt) :=
      List.mem_of_mem_drop (List.mem_of_mem_take hd)
    have hmatch := (List.mem_filter.mp hd').2
    rw [deliveryCondMatches] at hmatch
    rw [Bool.and_eq_true, Bool.and_eq_true] at hmatch
    have h1 := hmatch.1.1
    rw [hp] at h1
    simp only at h1
    by_cases hpe : p = ""
    · subst hpe
      exact hempty d.postcode
    · rwa [if_neg hpe] at h1

/-- Witness for C7: area filter "SW1" matches the prefixed postcode
"SW1A 1AA", and the long filter "SW1A 1AA" matches exactly itself. -/
theorem c7_witness :
    postcodeCond "SW1" "SW1A 1AA" = true ∧
    postcodeCond "SW1A 1AA" "SW1A 1AA" = true := by
  refine ⟨c7_postcode_filter.2.1 "SW1" "SW1A 1AA" (by decide) "A 1AA".data rfl, ?_⟩
  exact (c7_postcode_filter.1 "SW1A 1AA" "SW1A 1AA" (by decide)).mpr rfl

/-- C8: the manifest-lookup dispatch is purely structural on the input
string — length exactly 36 with a hyphen routes to lookup-by-id, every
other string to lookup-by-reference; reference lookup resolves the
most-recently-created matching manifest; an absent manifest yields a null
(not-found) result from either path, not an error. -/
theorem c8_lookup_dispatch :
    (∀ s : String, routeManifestLookup s = LookupRoute.byId ↔ (s.length = 36 ∧ '-' ∈ s.data)) ∧
    (∀ (st : DbState) (ref : String) (m : ManifestRow) (ds : List DeliveryRow),
      getManifestByRef st ref = some (m, ds) →
        m.manifest_id = ref ∧ m ∈ st.manifests ∧
        ∀ x ∈ st.manifests, x.manifest_id = ref → x.created_at ≤ m.created_at) ∧
    (∀ (st : DbState) (ref : String), (∀ x ∈ st.manifests, x.manifest_id ≠ ref) →
      getManifestByRef st ref = none) ∧
    (∀ (st : DbState) (id : Nat), (∀ x ∈ st.manifests, x.id ≠ id) →
      getManifestById st id = none) := by
  refine ⟨?_, ?_, ?_, ?_⟩
  · intro s
    constructor
    · intro hroute
      by_contra hneg
      rw [routeManifestLookup, if_neg hneg] at hroute
      cases hroute
    · intro hcond
      rw [routeManifestLookup, if_pos hcond]
  · intro st ref m ds h
    rw [getManifestByRef] at h
    cases hmr : mostRecent (st.manifests.filter (fun r => r.manifest_id == ref)) with
    | none => rw [hmr] at h; cases h
    | some row =>
      rw [hmr] at h
      simp only [Option.some.injEq, Prod.mk.injEq] at h
      obtain ⟨hm, hds⟩ := h
      subst hm
      have hmem := List.mem_filter.mp (mostRecent_mem hmr)
      refine ⟨by simpa using hmem.2, hmem.1, ?_⟩
      intro x hx hxref
      refine mostRecent_max hmr x (List.mem_filter.mpr ⟨hx, ?_⟩)
      simpa using hxref
  · intro st ref h
    rw [getManifestByRef]
    have hfil : st.manifests.filter (fun r => r.manifest_id == ref) = [] := by
      rw [List.filter_eq_nil_iff]
      intro a ha
      simpa using h a ha
    rw [hfil]
    rfl
  · intro st id h
    rw [getManifestById]
    have hfind : st.manifests.find? (fun r => r.id == id) = none :=
      List.find?_eq_none.mpr (fun x hx => by simpa using h x hx)
    rw [hfind]

/-- Witness for C8: a concrete 36-character hyphenated token routes to
id-lookup, a short reference routes to reference-lookup, and lookups on the
empty database return null. -/
theorem c8_witness :
    routeManifestLookup "123e4567-e89b-12d3-a456-426614174000" = LookupRoute.byId ∧
    getManifestByRef exDb "MAN1" = none ∧
    getManifestById exDb 7 = none := by
  refine ⟨(c8_lookup_dispatch.1 "123e4567-e89b-12d3-a456-426614174000").mpr (by decide), ?_, ?_⟩
  · exact c8_lookup_dispatch.2.2.1 exDb "MAN1" (by intro x hx; cases hx)
  · exact c8_lookup_dispatch.2.2.2 exDb 7 (by intro x hx; cases hx)
